import Mathlib

/-!
Verification of the session-navigation engine of a terminal media browser
(single Python source file `yt-browser5.py`), shallowly embedded in Lean.

The embedding follows the source: Python integers become `Int` (or `Nat`
for list indices), fallible operations become `Option`, the mutable
globals `PLAYLIST_START` / `PLAYLIST_END` become an explicit `Window`
value threaded through navigation steps.
-/

namespace YtBrowser

/-- Default value of the `NO_OF_SEARCH_RESULTS` configuration entry
(page size of the pagination window). -/
def NO_OF_SEARCH_RESULTS : Int := 30

/-- The pair of mutable globals `PLAYLIST_START` / `PLAYLIST_END` that
hold the current pagination window. -/
structure Window where
  playlistStart : Int
  playlistEnd : Int
deriving DecidableEq, Repr

/-- Initial window after `load_config`: `PLAYLIST_START = 1` and
`PLAYLIST_END = int(CONFIG["NO_OF_SEARCH_RESULTS"])` (source lines 63-64
and 225). -/
def initialWindow (P : Int) : Window := ⟨1, P⟩

/-- The `Next` branch of `playlist_explorer` (source lines 467-469):
both bounds advance by the page size. -/
def nextStep (P : Int) (w : Window) : Window :=
  ⟨w.playlistStart + P, w.playlistEnd + P⟩

/-- The `Previous` branch of `playlist_explorer` (source lines 473-478):
both bounds retreat by the page size, the start clamped up to 1 when it
would become `≤ 0`, the end clamped up to the page size when it would
drop below it. -/
def prevStep (P : Int) (w : Window) : Window :=
  ⟨if w.playlistStart - P ≤ 0 then 1 else w.playlistStart - P,
   if w.playlistEnd - P < P then P else w.playlistEnd - P⟩

/-- A navigation command chosen from the selector list. -/
inductive NavCmd where
  | next
  | previous
deriving DecidableEq, Repr

/-- One navigation step of the explorer loop. -/
def navStep (P : Int) (w : Window) : NavCmd → Window
  | .next => nextStep P w
  | .previous => prevStep P w

/-- The window reached from the initial window by a sequence of
`Next`/`Previous` commands. -/
def navRun (P : Int) (cmds : List NavCmd) : Window :=
  cmds.foldl (navStep P) (initialWindow P)

lemma navStep_invariant (P : Int) (hP : 1 ≤ P) (w : Window)
    (hs : 1 ≤ w.playlistStart) (he : w.playlistEnd = w.playlistStart + P - 1)
    (c : NavCmd) :
    1 ≤ (navStep P w c).playlistStart ∧
      (navStep P w c).playlistEnd = (navStep P w c).playlistStart + P - 1 := by
  cases c with
  | next =>
    simp only [navStep, nextStep]
    constructor <;> omega
  | previous =>
    simp only [navStep, prevStep]
    constructor
    · split <;> omega
    · split <;> split <;> omega

lemma navRun_invariant_aux (P : Int) (hP : 1 ≤ P) (cmds : List NavCmd)
    (w : Window) (hs : 1 ≤ w.playlistStart)
    (he : w.playlistEnd = w.playlistStart + P - 1) :
    1 ≤ (cmds.foldl (navStep P) w).playlistStart ∧
      (cmds.foldl (navStep P) w).playlistEnd
        = (cmds.foldl (navStep P) w).playlistStart + P - 1 := by
  induction cmds generalizing w with
  | nil => exact ⟨hs, he⟩
  | cons c cs ih =>
    have h := navStep_invariant P hP w hs he c
    simpa using ih (navStep P w c) h.1 h.2

/-- A round of the outer `playlist_explorer` loop, as driven by the
selector: `Next`/`Previous` carry whether the re-fetch performed by
`run_yt_dlp` yields a usable result (the check `if not search_results or
"entries" not in search_results` at the top of the next iteration),
`back` covers the `Back`/empty selections, `exitApp` is the `Exit`
selection that calls `byebye()` and never returns. -/
inductive ExplorerCmd where
  | next (fetchOk : Bool)
  | previous (fetchOk : Bool)
  | back
  | exitApp
deriving DecidableEq, Repr

/-- The `while True` loop of `playlist_explorer` restricted to the
navigation commands, returning the value of the window globals at the
point the loop is left by `break` (`some w`), or `none` when the loop
does not return to the caller (program exit, or the command list runs
out while the loop still waits for input). -/
def explorerLoop (P : Int) : List ExplorerCmd → Window → Option Window
  | [], _ => none
  | .back :: _, w => some w
  | .exitApp :: _, _ => none
  | .next ok :: rest, w =>
    if ok then explorerLoop P rest (nextStep P w) else some (nextStep P w)
  | .previous ok :: rest, w =>
    if ok then explorerLoop P rest (prevStep P w) else some (prevStep P w)

/-- `playlist_explorer` as far as the window globals are concerned:
whatever the loop did, the function unconditionally resets
`PLAYLIST_START = 1` and `PLAYLIST_END = int(CONFIG["NO_OF_SEARCH_RESULTS"])`
before returning (source lines 631-632). -/
def playlist_explorer (P : Int) (cmds : List ExplorerCmd) (w : Window) :
    Option Window :=
  (explorerLoop P cmds w).map (fun _ => ⟨1, P⟩)

/-- The `modes` list used by the `Toggle Autoplay` branch
(source line 522). -/
def modes : List String := ["off", "playlist", "related"]

/-- The `Toggle Audio Only` branch: `audio_only_mode = not audio_only_mode`
(source line 516). -/
def toggleAudioOnly (b : Bool) : Bool := !b

/-- The `Toggle Autoplay` branch (source lines 521-524):
`curr_idx = modes.index(autoplay_mode)` followed by
`autoplay_mode = modes[(curr_idx + 1) % len(modes)]`. Python's
`list.index` raises `ValueError` when the value is absent, which the
embedding renders as `none`. -/
def toggleAutoplay (m : String) : Option String :=
  match modes.indexOf? m with
  | some i => some (modes[(i + 1) % modes.length]!)
  | none => none

/-- The history update performed by `main_menu` before a literal search
(source lines 673-681): re-read the file keeping the stripped non-blank
lines that differ from the search term, append the term, and write all
of the kept lines back. The file is modelled as the list of its stripped
lines, oldest first. Note that the written list is NOT truncated. -/
def update_history (hist : List String) (search_term : String) : List String :=
  (hist.filter (fun l => !(l == "") && !(l == search_term))) ++ [search_term]

/-- The history view built by `prompt` (source lines 244-249): keep the
non-blank stripped lines, take the last 10 (`lines[-10:]`), and reverse
so the most recent entry is listed first. -/
def display_history (hist : List String) : List String :=
  let lines := hist.filter (fun l => !(l == ""))
  (lines.drop (lines.length - 10)).reverse

/-- The relative-upload-time bucketing of `generate_text_preview`
(source lines 365-377), applied to `diff = CURRENT_TIME - int(ts)`.
Python's floor division `//` is `Int.fdiv`. -/
def timestamp_str (diff : Int) : String :=
  if diff < 60 then "just now"
  else if diff < 3600 then toString (diff.fdiv 60) ++ " minutes ago"
  else if diff < 86400 then toString (diff.fdiv 3600) ++ " hours ago"
  else if diff < 604800 then toString (diff.fdiv 86400) ++ " days ago"
  else if diff < 2635200 then toString (diff.fdiv 604800) ++ " weeks ago"
  else if diff < 31622400 then toString (diff.fdiv 2635200) ++ " months ago"
  else toString (diff.fdiv 31622400) ++ " years ago"

/-- The regular-expression substitution `re.sub(r'^[0-9]+ ', '', s)`
of `generate_text_preview` (source line 336): when the string starts
with one or more ASCII digits followed by a space, that prefix is
removed, otherwise the string is unchanged. The pattern is anchored, so
at most one match is possible. -/
def stripLeadingNumber (s : String) : String :=
  let ds := s.data.takeWhile Char.isDigit
  let rest := s.data.dropWhile Char.isDigit
  if ds ≠ [] ∧ rest.head? = some ' ' then String.mk rest.tail else s

/-- The substitution `.replace('\n', ' ')` applied after the ordinal
strip (source line 336). -/
def replaceNewlines (s : String) : String :=
  String.mk (s.data.map (fun c => if c = '\n' then ' ' else c))

/-- `clean_title` of `generate_text_preview` (source line 336): strip a
leading number-plus-space, then replace every newline by a space. -/
def clean_title (raw : String) : String :=
  replaceNewlines (stripLeadingNumber raw)

/-- Character-level relation behind "differing only by newlines versus
spaces": the two character lists agree position by position up to
swapping `'\n'` and `' '`. -/
def nlSpaceEquiv : List Char → List Char → Bool
  | [], [] => true
  | c :: cs, d :: ds =>
    (c == d || (c == '\n' && d == ' ') || (c == ' ' && d == '\n'))
      && nlSpaceEquiv cs ds
  | _, _ => false

/-- A video entry as far as the playback loop reads it: the optional
fields `id`, `url` and `title` accessed with `dict.get` (absent keys
give `None`). -/
structure MixEntry where
  id : Option String
  url : Option String
  title : Option String
deriving DecidableEq, Repr

/-- The selection scan of the `related` autoplay branch (source lines
596-603): walk the fetched mix entries in order and take the first one
whose `entry.get("id")` differs from the current `vid_id`. -/
def selectRelated (vid_id : Option String) (entries : List MixEntry) :
    Option MixEntry :=
  entries.find? (fun e => !(e.id == vid_id))

/-- Outcome of the blocking `subprocess.run(player_cmd)` wait:
the player exited with a return code, or the wait was interrupted
(`KeyboardInterrupt`). -/
inductive PlayEvent where
  | exited (returncode : Int)
  | interrupted
deriving DecidableEq, Repr

/-- Result of a `yt-dlp` fetch: a parsed entry list, or any
transport/parse failure collapsed into `fail` (the code treats
`None`/missing `"entries"`/JSON errors alike by breaking). -/
inductive FetchResult where
  | ok (entries : List MixEntry)
  | fail
deriving DecidableEq, Repr

/-- The loop-local state of the `Watch` autoplay loop: the persistent
`autoplay_mode` string, `current_index` into `entries`, the current
`video`, and the pagination window globals. -/
structure AutoState where
  autoplay_mode : String
  current_index : Nat
  entries : List MixEntry
  video : MixEntry
  window : Window
deriving DecidableEq, Repr

/-- Result of one autoplay iteration: `stop` breaks out of the `Watch`
loop (control returns to the result list, the session continues), and
`continueWith` plays another entry. -/
inductive StepResult where
  | stop
  | continueWith (s : AutoState)
deriving DecidableEq, Repr

/-- One iteration of the `Watch` autoplay loop after playback ends
(source lines 549-609): a non-zero player exit code or a keyboard
interrupt breaks the loop; `mode = off` breaks after one playback;
`mode = playlist` advances the index, fetching the next page (window
advanced by the page size) when the index runs past the current
entries, and breaks when that page is unavailable or empty;
`mode = related` fetches a mix seeded by the current id and continues
with the first entry whose id differs, breaking when the fetch fails or
no entry qualifies. Any other mode string falls through every branch
and replays the same entry. -/
def autoplayStep (P : Int) (ev : PlayEvent) (pageFetch mixFetch : FetchResult)
    (s : AutoState) : StepResult :=
  match ev with
  | .interrupted => .stop
  | .exited returncode =>
    if returncode ≠ 0 then .stop
    else if s.autoplay_mode = "off" then .stop
    else if s.autoplay_mode = "playlist" then
      if h : s.entries.length ≤ s.current_index + 1 then
        match pageFetch with
        | .fail => .stop
        | .ok newEntries =>
          if h2 : 0 < newEntries.length then
            .continueWith { s with
              current_index := 0
              entries := newEntries
              video := newEntries.get ⟨0, h2⟩
              window := nextStep P s.window }
          else .stop
      else
        .continueWith { s with
          current_index := s.current_index + 1
          video := s.entries.get ⟨s.current_index + 1, by omega⟩ }
    else if s.autoplay_mode = "related" then
      match mixFetch with
      | .fail => .stop
      | .ok mixEntries =>
        match selectRelated s.video.id mixEntries with
        | some e => .continueWith { s with video := e }
        | none => .stop
    else .continueWith s

namespace SHA256

/-- Word modulus of the 32-bit arithmetic of SHA-256. -/
def MOD32 : Nat := 4294967296

/-- Rotate the 32-bit word `x` right by `n` bit positions, expressed
with division and remainder on `Nat`. -/
def rotateRight (n x : Nat) : Nat :=
  (x / 2 ^ n + x % 2 ^ n * 2 ^ (32 - n)) % MOD32

/-- Shift the 32-bit word `x` right by `n` bit positions. -/
def shiftRight (n x : Nat) : Nat := x / 2 ^ n

/-- Upper-case sigma-0 of FIPS 180-4 section 4.1.2. -/
def capSigma0 (x : Nat) : Nat :=
  rotateRight 2 x ^^^ rotateRight 13 x ^^^ rotateRight 22 x

/-- Upper-case sigma-1 of FIPS 180-4 section 4.1.2. -/
def capSigma1 (x : Nat) : Nat :=
  rotateRight 6 x ^^^ rotateRight 11 x ^^^ rotateRight 25 x

/-- Lower-case sigma-0 of FIPS 180-4 section 4.1.2. -/
def lowSigma0 (x : Nat) : Nat :=
  rotateRight 7 x ^^^ rotateRight 18 x ^^^ shiftRight 3 x

/-- Lower-case sigma-1 of FIPS 180-4 section 4.1.2. -/
def lowSigma1 (x : Nat) : Nat :=
  rotateRight 17 x ^^^ rotateRight 19 x ^^^ shiftRight 10 x

/-- The choose function of FIPS 180-4, with complement taken against
the 32-bit mask. -/
def chooseFn (x y z : Nat) : Nat := x &&& y ^^^ (x ^^^ (MOD32 - 1)) &&& z

/-- The majority function of FIPS 180-4. -/
def majorityFn (x y z : Nat) : Nat := x &&& y ^^^ x &&& z ^^^ y &&& z

/-- The sixty-four round constants of FIPS 180-4 section 4.2.2,
written in decimal. -/
def K : List Nat :=
  [1116352408, 1899447441, 3049323471, 3921009573,
   961987163, 1508970993, 2453635748, 2870763221,
   3624381080, 310598401, 607225278, 1426881987,
   1925078388, 2162078206, 2614888103, 3248222580,
   3835390401, 4022224774, 264347078, 604807628,
   770255983, 1249150122, 1555081692, 1996064986,
   2554220882, 2821834349, 2952996808, 3210313671,
   3336571891, 3584528711, 113926993, 338241895,
   666307205, 773529912, 1294757372, 1396182291,
   1695183700, 1986661051, 2177026350, 2456956037,
   2730485921, 2820302411, 3259730800, 3345764771,
   3516065817, 3600352804, 4094571909, 275423344,
   430227734, 506948616, 659060556, 883997877,
   958139571, 1322822218, 1537002063, 1747873779,
   1955562222, 2024104815, 2227730452, 2361852424,
   2428436474, 2756734187, 3204031479, 3329325298]

/-- The eight initial hash words of FIPS 180-4 section 5.3.3,
written in decimal. -/
def initH : List Nat :=
  [1779033703, 3144134277, 1013904242, 2773480762,
   1359893119, 2600822924, 528734635, 1541459225]

/-- Message padding: append `0x80`, zeros up to 56 bytes mod 64, then
the bit length as 8 big-endian bytes. -/
def pad (msg : List Nat) : List Nat :=
  let l := msg.length
  let k := (55 + 64 - l % 64) % 64
  let bitLen := 8 * l
  msg ++ [0x80] ++ List.replicate k 0 ++
    [bitLen / 2 ^ 56 % 256, bitLen / 2 ^ 48 % 256,
     bitLen / 2 ^ 40 % 256, bitLen / 2 ^ 32 % 256,
     bitLen / 2 ^ 24 % 256, bitLen / 2 ^ 16 % 256,
     bitLen / 2 ^ 8 % 256, bitLen % 256]

/-- Big-endian packing of bytes into 32-bit words. -/
def toWords : List Nat → List Nat
  | b0 :: b1 :: b2 :: b3 :: rest =>
    (((b0 * 256 + b1) * 256 + b2) * 256 + b3) :: toWords rest
  | _ => []

/-- Append the next word of the message schedule. -/
def extendOnce (w : List Nat) : List Nat :=
  let n := w.length
  w ++ [(lowSigma1 (w.getD (n - 2) 0) + w.getD (n - 7) 0
          + lowSigma0 (w.getD (n - 15) 0) + w.getD (n - 16) 0) % MOD32]

/-- Expand a 16-word block into the 64-word message schedule. -/
def schedule (block : List Nat) : List Nat :=
  (List.range 48).foldl (fun w _ => extendOnce w) block

/-- Working registers a-h. -/
structure Regs where
  a : Nat
  b : Nat
  c : Nat
  d : Nat
  e : Nat
  f : Nat
  g : Nat
  h : Nat
deriving DecidableEq, Repr

/-- One compression round. -/
def roundStep (r : Regs) (kw : Nat × Nat) : Regs :=
  let t1 := (r.h + capSigma1 r.e + chooseFn r.e r.f r.g + kw.1 + kw.2) % MOD32
  let t2 := (capSigma0 r.a + majorityFn r.a r.b r.c) % MOD32
  ⟨(t1 + t2) % MOD32, r.a, r.b, r.c, (r.d + t1) % MOD32, r.e, r.f, r.g⟩

/-- Compress one 16-word block into the running hash value. -/
def compress (hs : List Nat) (block : List Nat) : List Nat :=
  let ws := schedule block
  let r0 : Regs := ⟨hs.getD 0 0, hs.getD 1 0, hs.getD 2 0, hs.getD 3 0,
                    hs.getD 4 0, hs.getD 5 0, hs.getD 6 0, hs.getD 7 0⟩
  let r := (K.zip ws).foldl roundStep r0
  [(hs.getD 0 0 + r.a) % MOD32, (hs.getD 1 0 + r.b) % MOD32,
   (hs.getD 2 0 + r.c) % MOD32, (hs.getD 3 0 + r.d) % MOD32,
   (hs.getD 4 0 + r.e) % MOD32, (hs.getD 5 0 + r.f) % MOD32,
   (hs.getD 6 0 + r.g) % MOD32, (hs.getD 7 0 + r.h) % MOD32]

/-- Fold the compression function over the padded message, 16 words at
a time. -/
def processBlocks (hs : List Nat) (ws : List Nat) : List Nat :=
  if hws : ws = [] then hs
  else processBlocks (compress hs (ws.take 16)) (ws.drop 16)
termination_by ws.length
decreasing_by
  simp only [List.length_drop]
  have hpos : 0 < ws.length := List.length_pos.mpr hws
  omega

/-- Lower-case hex digit. -/
def hexChar (n : Nat) : Char :=
  if n < 10 then Char.ofNat (48 + n) else Char.ofNat (87 + n)

/-- Eight hex digits of a 32-bit word, most significant first. -/
def wordToHex (w : Nat) : List Char :=
  [hexChar (w / 2 ^ 28 % 16), hexChar (w / 2 ^ 24 % 16),
   hexChar (w / 2 ^ 20 % 16), hexChar (w / 2 ^ 16 % 16),
   hexChar (w / 2 ^ 12 % 16), hexChar (w / 2 ^ 8 % 16),
   hexChar (w / 2 ^ 4 % 16), hexChar (w % 16)]

/-- SHA-256 hex digest of a byte sequence. -/
def hexdigest (msg : List Nat) : String :=
  String.mk (((processBlocks initH (toWords (pad msg))).map wordToHex).flatten)

end SHA256

/-- `generate_sha256` (source lines 89-92): UTF-8 encode the text and
return the hex digest of its SHA-256 hash (`hashlib.sha256(...)`,
modelled by the FIPS 180-4 algorithm above). -/
def generate_sha256 (text : String) : String :=
  SHA256.hexdigest (text.toUTF8.toList.map UInt8.toNat)

/-- C1 counterexample: the claim "start ≥ 1 and end − start equals the
configured page size after every step, including the initial state" is
already false at the initial state: with the configured page size 30 the
initial window is `(1, 30)` and `30 − 1 = 29 ≠ 30`. -/
theorem C1_bounds_counterexample :
    ¬ (1 ≤ (navRun NO_OF_SEARCH_RESULTS []).playlistStart ∧
        (navRun NO_OF_SEARCH_RESULTS []).playlistEnd
          - (navRun NO_OF_SEARCH_RESULTS []).playlistStart
          = NO_OF_SEARCH_RESULTS) := by
  decide

/-- C1 (amended): for every sequence of Next/Previous navigation steps
starting from the initial window, `start ≥ 1` and `end − start` equals
the configured page size minus one (the window covers exactly one page
size of positions, bounds inclusive) after every step, including the
initial state. -/
theorem C1_pagination_window_invariant (P : Int) (hP : 1 ≤ P)
    (cmds : List NavCmd) :
    1 ≤ (navRun P cmds).playlistStart ∧
      (navRun P cmds).playlistEnd - (navRun P cmds).playlistStart = P - 1 := by
  have h := navRun_invariant_aux P hP cmds (initialWindow P)
    (by show (1 : Int) ≤ 1; omega) (by show P = 1 + P - 1; omega)
  unfold navRun
  exact ⟨h.1, by omega⟩

/-- C1 witness at page size 30 and the navigation sequence
Next, Next, Previous. -/
theorem C1_pagination_window_invariant_witness :
    (1 : Int) ≤ 30 ∧
      (1 ≤ (navRun 30 [NavCmd.next, NavCmd.next, NavCmd.previous]).playlistStart ∧
        (navRun 30 [NavCmd.next, NavCmd.next, NavCmd.previous]).playlistEnd
          - (navRun 30 [NavCmd.next, NavCmd.next, NavCmd.previous]).playlistStart
          = 30 - 1) :=
  ⟨by decide,
   C1_pagination_window_invariant 30 (by decide)
     [NavCmd.next, NavCmd.next, NavCmd.previous]⟩

/-- C3: `Previous()` subtracts the page size from both bounds, clamped
so the start never drops below 1 and the end never drops below the page
size (the subtraction is kept whenever it stays above the floor), and
applying it when `start == 1` leaves `start == 1`. -/
theorem C3_previous_clamped (P : Int) (w : Window) (hP : 1 ≤ P) :
    1 ≤ (prevStep P w).playlistStart ∧
      P ≤ (prevStep P w).playlistEnd ∧
      (1 ≤ w.playlistStart - P →
        (prevStep P w).playlistStart = w.playlistStart - P) ∧
      (P ≤ w.playlistEnd - P →
        (prevStep P w).playlistEnd = w.playlistEnd - P) ∧
      (w.playlistStart = 1 → (prevStep P w).playlistStart = 1) := by
  refine ⟨?_, ?_, ?_, ?_, ?_⟩ <;>
    simp only [prevStep] <;> (try intro hx) <;> split <;> omega

/-- C3 witness at page size 30 and the window `(1, 30)`. -/
theorem C3_previous_clamped_witness :
    (1 : Int) ≤ 30 ∧
      (1 ≤ (prevStep 30 ⟨1, 30⟩).playlistStart ∧
        30 ≤ (prevStep 30 ⟨1, 30⟩).playlistEnd ∧
        (1 ≤ (1 : Int) - 30 → (prevStep 30 ⟨1, 30⟩).playlistStart = 1 - 30) ∧
        (30 ≤ (30 : Int) - 30 → (prevStep 30 ⟨1, 30⟩).playlistEnd = 30 - 30) ∧
        ((1 : Int) = 1 → (prevStep 30 ⟨1, 30⟩).playlistStart = 1)) :=
  ⟨by decide, C3_previous_clamped 30 ⟨1, 30⟩ (by decide)⟩

/-- C9: whenever `playlist_explorer` returns control to its caller (a
`Back` or empty selection, or a navigation whose re-fetch yields no
usable page), the pagination window globals are reset to `start = 1`
and `end = ` the configured page size, whatever navigation happened
before, so the next search starts at the first window. -/
theorem C9_explorer_resets_window (P : Int) (cmds : List ExplorerCmd)
    (w w' : Window) (hret : playlist_explorer P cmds w = some w') :
    w' = ⟨1, P⟩ := by
  cases h : explorerLoop P cmds w with
  | none => simp [playlist_explorer, h] at hret
  | some v =>
    simp [playlist_explorer, h] at hret
    exact hret.symm

/-- C9 witness: a `Next` with a failed re-fetch followed by the loop
break returns the reset window even from a far-advanced window. -/
theorem C9_explorer_resets_window_witness :
    playlist_explorer 30 [ExplorerCmd.next false] ⟨61, 90⟩ = some ⟨1, 30⟩ ∧
      (⟨1, 30⟩ : Window) = ⟨1, 30⟩ :=
  ⟨by decide,
   C9_explorer_resets_window 30 [ExplorerCmd.next false] ⟨61, 90⟩ ⟨1, 30⟩
     (by decide)⟩

/-- C5: from any preference state whose autoplay mode is one of
`off`, `playlist`, `related`, toggling audio-only twice restores the
original flag, toggling autoplay three times restores the original
mode, and the single-toggle transitions follow the cycle
`off → playlist → related → off`. -/
theorem C5_toggle_cycles (b : Bool) (m : String) (hm : m ∈ modes) :
    toggleAudioOnly (toggleAudioOnly b) = b ∧
      ((toggleAutoplay m).bind toggleAutoplay).bind toggleAutoplay = some m ∧
      toggleAutoplay "off" = some "playlist" ∧
      toggleAutoplay "playlist" = some "related" ∧
      toggleAutoplay "related" = some "off" := by
  have hb : toggleAudioOnly (toggleAudioOnly b) = b := by cases b <;> rfl
  simp only [modes, List.mem_cons, List.not_mem_nil, or_false] at hm
  rcases hm with h | h | h <;> subst h <;>
    exact ⟨hb, by decide, by decide, by decide, by decide⟩

/-- C5 witness at audio-only `true` and autoplay mode `"related"`. -/
theorem C5_toggle_cycles_witness :
    "related" ∈ modes ∧
      (toggleAudioOnly (toggleAudioOnly true) = true ∧
        ((toggleAutoplay "related").bind toggleAutoplay).bind toggleAutoplay
          = some "related" ∧
        toggleAutoplay "off" = some "playlist" ∧
        toggleAutoplay "playlist" = some "related" ∧
        toggleAutoplay "related" = some "off") :=
  ⟨by decide, C5_toggle_cycles true "related" (by decide)⟩

/-- C10: the autoplay toggle is only total on the three known mode
strings: any other string loaded from the persisted `AUTOPLAY_MODE`
preference makes the `modes.index` lookup fail (Python `ValueError`,
modelled as `none`) instead of cycling or defaulting. -/
theorem C10_toggle_autoplay_partial (m : String) (hm : m ∉ modes) :
    toggleAutoplay m = none := by
  have h : modes.indexOf? m = none := by
    refine List.indexOf?_eq_none_iff.mpr (fun x hx => ?_)
    simp only [beq_iff_eq]
    intro he
    exact hm (he ▸ hx)
  simp [toggleAutoplay, h]

/-- C10 witness at the unknown mode string `"shuffle"`. -/
theorem C10_toggle_autoplay_partial_witness :
    "shuffle" ∉ modes ∧ toggleAutoplay "shuffle" = none :=
  ⟨by decide, C10_toggle_autoplay_partial "shuffle" (by decide)⟩

/-- C7: for every non-negative timestamp difference `d` in seconds, the
relative-time string is bucketed by integer division with the
thresholds 60, 3600, 86400, 604800, 2635200, 31622400 (just now,
minutes, hours, days, weeks, months, else years); in particular
`d = 5000` yields `"1 hours ago"`. -/
theorem C7_relative_time_buckets (d : Int) (hd : 0 ≤ d) :
    (d < 60 → timestamp_str d = "just now") ∧
      (60 ≤ d → d < 3600 →
        timestamp_str d = toString (d.fdiv 60) ++ " minutes ago") ∧
      (3600 ≤ d → d < 86400 →
        timestamp_str d = toString (d.fdiv 3600) ++ " hours ago") ∧
      (86400 ≤ d → d < 604800 →
        timestamp_str d = toString (d.fdiv 86400) ++ " days ago") ∧
      (604800 ≤ d → d < 2635200 →
        timestamp_str d = toString (d.fdiv 604800) ++ " weeks ago") ∧
      (2635200 ≤ d → d < 31622400 →
        timestamp_str d = toString (d.fdiv 2635200) ++ " months ago") ∧
      (31622400 ≤ d →
        timestamp_str d = toString (d.fdiv 31622400) ++ " years ago") ∧
      timestamp_str 5000 = "1 hours ago" := by
  refine ⟨?_, ?_, ?_, ?_, ?_, ?_, ?_, by decide⟩ <;>
    (intro h1; try intro h2) <;>
    (unfold timestamp_str; split_ifs <;> first | rfl | omega)

/-- C7 witness: the scenario `d = 5000` lands in the hour bucket. -/
theorem C7_relative_time_buckets_witness :
    timestamp_str 5000 = "1 hours ago" :=
  (C7_relative_time_buckets 5000 (by decide)).2.2.2.2.2.2.2

/-- C8: whenever the player process exits with a non-zero code, the
autoplay loop iteration stops immediately for every autoplay mode,
index, entry list and fetch outcome — `stop` is the outcome that breaks
the watch loop and returns to the result list, so no further entry is
auto-advanced to and the session continues. -/
theorem C8_player_failure_stops_autoplay (P rc : Int)
    (pf mf : FetchResult) (s : AutoState) (hrc : rc ≠ 0) :
    autoplayStep P (.exited rc) pf mf s = .stop := by
  simp [autoplayStep, hrc]

/-- C8 witness at exit code 1 in playlist mode. -/
theorem C8_player_failure_stops_autoplay_witness :
    (1 : Int) ≠ 0 ∧
      autoplayStep 30 (PlayEvent.exited 1) FetchResult.fail FetchResult.fail
        ⟨"playlist", 0, [], ⟨none, none, none⟩, ⟨1, 30⟩⟩ = StepResult.stop :=
  ⟨by decide,
   C8_player_failure_stops_autoplay 30 1 FetchResult.fail FetchResult.fail
     ⟨"playlist", 0, [], ⟨none, none, none⟩, ⟨1, 30⟩⟩ (by decide)⟩

/-- C6: in related autoplay mode the next entry is the first entry of
the fetched mix whose id differs from the current one: a selected entry
always has a different id, a mix containing at least one entry with a
different id always yields such a selection (the current id is never
re-selected), the first differing entry is the one selected, and the
loop stops when the mix fetch fails or no entry qualifies. -/
theorem C6_related_selection (v : Option String) (es : List MixEntry) :
    (∀ e, selectRelated v es = some e → e.id ≠ v) ∧
      ((∃ e ∈ es, e.id ≠ v) →
        ∃ e, selectRelated v es = some e ∧ e.id ≠ v) ∧
      (∀ l1 e l2, es = l1 ++ e :: l2 → (∀ x ∈ l1, x.id = v) → e.id ≠ v →
        selectRelated v es = some e) ∧
      (∀ P pf s, s.autoplay_mode = "related" →
        autoplayStep P (.exited 0) pf .fail s = .stop) ∧
      (∀ P pf s, s.autoplay_mode = "related" → s.video.id = v →
        selectRelated v es = none →
        autoplayStep P (.exited 0) pf (.ok es) s = .stop) := by
  refine ⟨?_, ?_, ?_, ?_, ?_⟩
  · intro e he
    have := List.find?_some he
    simpa using this
  · intro hex
    have hsome : (selectRelated v es).isSome := by
      rw [selectRelated, List.find?_isSome]
      obtain ⟨e, hmem, hne⟩ := hex
      exact ⟨e, hmem, by simpa using hne⟩
    obtain ⟨e, he⟩ := Option.isSome_iff_exists.mp hsome
    exact ⟨e, he, by simpa using List.find?_some he⟩
  · intro l1 e l2 hes hskip hne
    subst hes
    induction l1 with
    | nil => simp [selectRelated, List.find?_cons_of_pos, hne]
    | cons x xs ih =>
      have hx : x.id = v := hskip x (by simp)
      have hxs : ∀ y ∈ xs, y.id = v := fun y hy => hskip y (by simp [hy])
      simpa [selectRelated, List.find?_cons_of_neg, hx] using ih hxs
  · intro P pf s hmode
    simp [autoplayStep, hmode]
  · intro P pf s hmode hvid hnone
    simp [autoplayStep, hmode, hvid, hnone]

/-- C6 witness: a two-entry mix whose first entry carries the current
id selects the second entry, whose id differs. -/
theorem C6_related_selection_witness :
    selectRelated (some "cur")
        [⟨some "cur", none, none⟩, ⟨some "oth", none, none⟩]
        = some ⟨some "oth", none, none⟩ ∧
      (⟨some "oth", none, none⟩ : MixEntry).id ≠ some "cur" :=
  ⟨by decide,
   (C6_related_selection (some "cur")
       [⟨some "cur", none, none⟩, ⟨some "oth", none, none⟩]).1
     ⟨some "oth", none, none⟩ (by decide)⟩

/-- C2 counterexample: the persisted search history is NOT capped at 10
entries — starting from an empty history, eleven literal searches for
eleven distinct terms leave eleven entries in the file, because the
update writes every kept line back without truncating (only
the prompt display and the recall view take the last 10). -/
theorem C2_history_cap_counterexample :
    ¬ ((["a", "b", "c", "d", "e", "f", "g", "h", "i", "j", "k"].foldl
          update_history []).length ≤ 10) := by
  decide

/-- C2 (amended): after every history update performed on a literal
search, the searched term is the most-recent (last) entry and occurs
exactly once, the persisted history stays free of duplicate entries
when it had none before, and the history shown for recall is truncated
to the last 10 entries — but the persisted file itself is not truncated
and may exceed 10 entries. -/
theorem C2_history_update (hist : List String) (t : String)
    (hnd : hist.Nodup) :
    (update_history hist t).getLast? = some t ∧
      (update_history hist t).count t = 1 ∧
      (update_history hist t).Nodup ∧
      (display_history (update_history hist t)).length ≤ 10 := by
  refine ⟨?_, ?_, ?_, ?_⟩
  · rw [update_history, List.getLast?_concat]
  · rw [update_history, List.count_append]
    have hzero :
        (hist.filter (fun l => !(l == "") && !(l == t))).count t = 0 := by
      refine List.count_eq_zero.mpr (fun hmem => ?_)
      have := List.of_mem_filter hmem
      simp at this
    simp [hzero]
  · rw [update_history]
    refine List.nodup_append.mpr ⟨hnd.filter _, List.nodup_singleton t, ?_⟩
    intro x hx hx1
    have hcond := List.of_mem_filter hx
    simp at hx1
    subst hx1
    simp at hcond
  · simp only [display_history, List.length_reverse, List.length_drop]
    omega

/-- C2 witness: updating the history `["a", "b"]` with the already
present term `"a"` moves it to the last slot, keeps a single copy,
keeps the history duplicate-free, and displays at most 10 entries. -/
theorem C2_history_update_witness :
    (["a", "b"] : List String).Nodup ∧
      ((update_history ["a", "b"] "a").getLast? = some "a" ∧
        (update_history ["a", "b"] "a").count "a" = 1 ∧
        (update_history ["a", "b"] "a").Nodup ∧
        (display_history (update_history ["a", "b"] "a")).length ≤ 10) :=
  ⟨by decide, C2_history_update ["a", "b"] "a" (by decide)⟩

lemma takeWhile_append_all {p : Char → Bool} (l1 l2 : List Char)
    (h : ∀ c ∈ l1, p c = true) :
    (l1 ++ l2).takeWhile p = l1 ++ l2.takeWhile p := by
  induction l1 with
  | nil => simp
  | cons c cs ih =>
    have hc : p c = true := h c (by simp)
    simp [List.takeWhile_cons, hc, ih (fun x hx => h x (by simp [hx]))]

lemma dropWhile_append_all {p : Char → Bool} (l1 l2 : List Char)
    (h : ∀ c ∈ l1, p c = true) :
    (l1 ++ l2).dropWhile p = l2.dropWhile p := by
  induction l1 with
  | nil => simp
  | cons c cs ih =>
    have hc : p c = true := h c (by simp)
    simp [List.dropWhile_cons, hc, ih (fun x hx => h x (by simp [hx]))]

lemma stripLeadingNumber_of_digits (d r : String) (hne : d.data ≠ [])
    (hd : ∀ c ∈ d.data, c.isDigit = true) :
    stripLeadingNumber (d ++ " " ++ r) = r := by
  have hsp : (" " : String).data = [' '] := rfl
  have hdata : (d ++ " " ++ r).data = d.data ++ (' ' :: r.data) := by
    rw [String.data_append, String.data_append, hsp, List.append_assoc,
      List.singleton_append]
  have htw : (d ++ " " ++ r).data.takeWhile Char.isDigit = d.data := by
    rw [hdata, takeWhile_append_all _ _ hd]
    simp [List.takeWhile_cons]
  have hdw : (d ++ " " ++ r).data.dropWhile Char.isDigit = ' ' :: r.data := by
    rw [hdata, dropWhile_append_all _ _ hd]
    simp [List.dropWhile_cons]
  simp only [stripLeadingNumber, htw, hdw]
  rw [if_pos ⟨hne, rfl⟩, List.tail_cons]

lemma map_nl_eq_of_nlSpaceEquiv (l1 l2 : List Char)
    (h : nlSpaceEquiv l1 l2 = true) :
    l1.map (fun c => if c = '\n' then ' ' else c)
      = l2.map (fun c => if c = '\n' then ' ' else c) := by
  induction l1 generalizing l2 with
  | nil => cases l2 with
    | nil => rfl
    | cons d ds => simp [nlSpaceEquiv] at h
  | cons c cs ih =>
    cases l2 with
    | nil => simp [nlSpaceEquiv] at h
    | cons d ds =>
      rw [nlSpaceEquiv] at h
      simp only [Bool.and_eq_true, Bool.or_eq_true, beq_iff_eq,
        decide_eq_true_eq] at h
      obtain ⟨hcd, hrest⟩ := h
      simp only [List.map_cons]
      congr 1
      · rcases hcd with (h1 | ⟨h1, h2⟩) | ⟨h1, h2⟩
        · rw [h1]
        · rw [h1, h2]; decide
        · rw [h1, h2]; decide
      · exact ih ds hrest

/-- C4: the text-artifact key function is deterministic (it is a
function of the normalized title alone) and normalization-stable: two
titles built from a nonempty leading digit prefix, the separating
space, and bodies that agree up to swapping newlines and spaces get the
same `generate_sha256` key after `clean_title` normalization, so such
entries share one cached text artifact. -/
theorem C4_title_key_normalization_stable (d1 d2 r1 r2 : String)
    (h1 : d1.data ≠ []) (h1d : ∀ c ∈ d1.data, c.isDigit = true)
    (h2 : d2.data ≠ []) (h2d : ∀ c ∈ d2.data, c.isDigit = true)
    (hr : nlSpaceEquiv r1.data r2.data = true) :
    generate_sha256 (clean_title (d1 ++ " " ++ r1))
      = generate_sha256 (clean_title (d2 ++ " " ++ r2)) := by
  rw [clean_title, stripLeadingNumber_of_digits d1 r1 h1 h1d,
    clean_title, stripLeadingNumber_of_digits d2 r2 h2 h2d,
    replaceNewlines, replaceNewlines, map_nl_eq_of_nlSpaceEquiv r1.data r2.data hr]

/-- C4 witness: the scenario titles `"01 Song A"` and `"17 Song A"`
share one text-artifact key. -/
theorem C4_title_key_normalization_stable_witness :
    ("01" : String).data ≠ [] ∧ ("17" : String).data ≠ [] ∧
      nlSpaceEquiv ("Song A" : String).data ("Song A" : String).data = true ∧
      generate_sha256 (clean_title ("01" ++ " " ++ "Song A"))
        = generate_sha256 (clean_title ("17" ++ " " ++ "Song A")) :=
  ⟨by decide, by decide, by decide,
   C4_title_key_normalization_stable "01" "17" "Song A" "Song A"
     (by decide) (by decide) (by decide) (by decide) (by decide)⟩

end YtBrowser
